import Mathlib

/-!
Verification development for the Layout Synthesis Engine
(`layout3_working.py`) and the Envelope Builder
(`envelope_builder_mark2.py`) of the construction-cost-estimation
repository.  The Python code is shallowly embedded: rooms and wall
segments become structures over `ℚ` (all coordinates in the program are
small dyadic rationals, on which Python float arithmetic is exact),
in-place mutation becomes explicit list updates addressed by list index
(Python object identity, `r is room`, is modelled by index equality),
and every bounded loop becomes fuel/structural recursion with the same
bound as the source.
-/

-- The Batteries definitions of rational arithmetic are `@[irreducible]`,
-- which blocks `decide`/`rfl` evaluation of the embedded program on
-- concrete inputs; restore the ordinary (semireducible) transparency.
set_option allowUnsafeReducibility true

attribute [semireducible] Rat.add Rat.mul Rat.sub Rat.inv

namespace Layout

/-- Python's built-in `round` (banker's rounding, half to even),
restricted to rationals, as used by `polish_layout` and
`_snap_to_grid`. -/
def pyRound (q : ℚ) : ℤ :=
  let f : ℤ := ⌊q⌋
  let r : ℚ := q - f
  if r < 1/2 then f
  else if 1/2 < r then f + 1
  else if f % 2 = 0 then f else f + 1

/-- The `StrictAdjacencyRefiner._snap_to_grid`: `round(v / 0.5) * 0.5`. -/
def snapQ (v : ℚ) : ℚ := (pyRound (v / (1/2)) : ℚ) * (1/2)

theorem pyRound_intCast (k : ℤ) : pyRound (k : ℚ) = k := by
  unfold pyRound
  simp [Int.floor_intCast]

/-- A rational that is an integer multiple of `1/2` is left unchanged by
the 0.5-grid snap. -/
theorem snapQ_half_int (k : ℤ) : snapQ ((k : ℚ) / 2) = (k : ℚ) / 2 := by
  unfold snapQ
  have h : ((k : ℚ) / 2) / (1/2) = (k : ℚ) := by ring
  rw [h, pyRound_intCast]
  ring

/-- Substring test on lists of characters (`pat in s` for Python
strings, after both sides are normalised). -/
def charsHas (pat l : List Char) : Bool :=
  (List.range (l.length + 1)).any fun i => pat.isPrefixOf (l.drop i)

/-- The `pat in s.lower()` for a lowercase literal `pat`. -/
def strHasLower (pat : String) (s : String) : Bool :=
  charsHas pat.data (s.data.map Char.toLower)

/-- The `AdjacencyEdge` of the room graph: `{to, type, edge_preference}`. -/
structure AdjEdge where
  toRoom : String
  kind : String
  edgePreference : Option String := none
  deriving Repr, DecidableEq, Inhabited

/-- The `Room` dataclass of `layout3_working.py`. -/
@[ext]
structure Room where
  room_id : String
  name : String
  purpose : String
  width : ℚ
  height : ℚ
  zone : String
  adjacency : List AdjEdge
  x : ℚ := 0
  y : ℚ := 0
  locked : Bool := false
  priority : ℤ := 0
  deriving Repr, DecidableEq, Inhabited

namespace Room

/-- The `Room.bounds`. -/
def boundsR (r : Room) : ℚ × ℚ × ℚ × ℚ := (r.x, r.y, r.x + r.width, r.y + r.height)

/-- The `Room.center`. -/
def center (r : Room) : ℚ × ℚ := (r.x + r.width / 2, r.y + r.height / 2)

/-- The `Room.area`. -/
def area (r : Room) : ℚ := r.width * r.height

/-- The `Room.make_corridor`: a circulation rectangle linking the two
rooms' centers, oriented along the axis of larger center separation
(ties vertical), length capped at 12. -/
def make_corridor (room_a room_b : Room) (width : ℚ) : Room :=
  let MAX_CORRIDOR_LEN : ℚ := 12
  let ax := (center room_a).1
  let ay := (center room_a).2
  let bx := (center room_b).1
  let by_ := (center room_b).2
  if |ax - bx| > |ay - by_| then
    let length := min |ax - bx| MAX_CORRIDOR_LEN
    { room_id := "corridor_" ++ room_a.room_id ++ "_" ++ room_b.room_id
      name := "Corridor", purpose := "circulation"
      width := length, height := width, zone := "circulation", adjacency := []
      x := min ax bx, y := (ay + by_) / 2 - width / 2 }
  else
    let length := min |ay - by_| MAX_CORRIDOR_LEN
    { room_id := "corridor_" ++ room_a.room_id ++ "_" ++ room_b.room_id
      name := "Corridor", purpose := "circulation"
      width := width, height := length, zone := "circulation", adjacency := []
      x := (ax + bx) / 2 - width / 2, y := min ay by_ }

end Room

/-- The `"master" in r.name.lower()` combined with a purpose test. -/
def isMasterBed (r : Room) : Bool :=
  r.purpose == "bedroom" && strHasLower "master" r.name

def isMasterBath (r : Room) : Bool :=
  r.purpose == "bathroom" && strHasLower "master" r.name

/-- First index satisfying a predicate (`next((r for r in rooms if p r), None)`
returns the room object; we address it by its index in the owning list). -/
def findIdxP (p : Room → Bool) : List Room → Option Nat
  | [] => none
  | r :: rs => if p r then some 0 else (findIdxP p rs).map (· + 1)

/-- Read a room by index (total, with a dummy default; all accesses in the
embedding are in range). -/
def getR (l : List Room) (i : Nat) : Room := l.getD i default

/-- Write a room by index. -/
def setR (l : List Room) (i : Nat) (r : Room) : List Room := l.set i r

/-- Update a room in place: the Python phases mutate the room object held
by the shared list. -/
def updR (l : List Room) (i : Nat) (f : Room → Room) : List Room :=
  setR l i (f (getR l i))

/-! ## Zone Placer (`ImprovedZonePlacer`) -/

/-- The priority table at the top of `ImprovedZonePlacer.place`. -/
def assignPriority (r : Room) : Room :=
  if r.purpose == "living" then { r with priority := 100 }
  else if isMasterBed r then { r with priority := 90 }
  else if isMasterBath r then { r with priority := 85 }
  else if r.purpose == "kitchen" then { r with priority := 80 }
  else if r.purpose == "bedroom" then { r with priority := 70 }
  else if r.purpose == "bathroom" then { r with priority := 65 }
  else if strHasLower "foyer" r.name then { r with priority := 95 }
  else { r with priority := 50 }

/-- The `ImprovedZonePlacer.place`.  The constructor arguments
(`plot_w, plot_h, setbacks`) give `x0, y0, w, h`; role rooms are located
by a first-match scan and mutated in sequence, each step reading the
coordinates already assigned by earlier steps. -/
def zonePlace (plot_w plot_h sb_front sb_rear sb_left sb_right : ℚ)
    (rooms0 : List Room) : List Room :=
  let x0 := sb_left
  let y0 := sb_front
  let h := plot_h - sb_front - sb_rear
  let rooms := rooms0.map assignPriority
  let livingIdx := findIdxP (fun r => r.purpose == "living") rooms
  let foyerIdx := findIdxP (fun r => strHasLower "foyer" r.name) rooms
  let kitchenIdx := findIdxP (fun r => r.purpose == "kitchen") rooms
  let mbedIdx := findIdxP isMasterBed rooms
  let mbathIdx := findIdxP isMasterBath rooms
  let cbathIdx := findIdxP
    (fun r => r.purpose == "bathroom" && strHasLower "common" r.name) rooms
  let kidIdxs := (List.range rooms.length).filter fun i =>
    (getR rooms i).purpose == "bedroom" && !(strHasLower "master" (getR rooms i).name)
  -- Top-left: living room
  let rooms := match livingIdx with
    | some li => updR rooms li fun r => { r with x := x0 + 1, y := y0 + 1 }
    | none => rooms
  -- Foyer takes the corner, living shifts right
  let rooms := match foyerIdx, livingIdx with
    | some fi, some li =>
        let rooms := updR rooms fi fun r => { r with x := x0 + 1, y := y0 + 1 }
        let foyer := getR rooms fi
        updR rooms li fun r => { r with x := foyer.x + foyer.width + 1 }
    | _, _ => rooms
  -- Kitchen below foyer, else below living, else at origin
  let rooms := match kitchenIdx with
    | some ki =>
        (match foyerIdx with
         | some fi =>
             let f := getR rooms fi
             updR rooms ki fun r => { r with x := f.x, y := f.y + f.height + 1 }
         | none =>
             match livingIdx with
             | some li =>
                 let l := getR rooms li
                 updR rooms ki fun r => { r with x := l.x, y := l.y + l.height + 1 }
             | none => updR rooms ki fun r => { r with x := x0 + 1, y := y0 + 1 })
    | none => rooms
  -- Common bathroom to the right of living
  let rooms := match cbathIdx, livingIdx with
    | some ci, some li =>
        let l := getR rooms li
        updR rooms ci fun r => { r with x := l.x + l.width + 1/2, y := l.y + 2 }
    | _, _ => rooms
  -- Master bedroom bottom-left
  let rooms := match mbedIdx with
    | some bi =>
        (match kitchenIdx with
         | some ki =>
             let k := getR rooms ki
             updR rooms bi fun r => { r with x := x0 + 1, y := k.y + k.height + 2 }
         | none =>
             updR rooms bi fun r => { r with x := x0 + 1, y := y0 + h * (1/2) })
    | none => rooms
  -- Master bathroom directly below master bedroom, locked
  let rooms := match mbathIdx, mbedIdx with
    | some ti, some bi =>
        let bed := getR rooms bi
        updR rooms ti fun r =>
          { r with x := bed.x, y := bed.y + bed.height + 1/2, locked := true }
    | _, _ => rooms
  -- Kids bedrooms stack to the right of the master bedroom
  match mbedIdx with
  | some bi =>
      if kidIdxs.isEmpty then rooms
      else
        (kidIdxs.enum.foldl (fun rooms (i, ki) =>
          let bed := getR rooms bi
          updR rooms ki fun r =>
            { r with x := bed.x + bed.width + 3/2
                     y := bed.y + (i : ℚ) * (r.height + 1) }) rooms)
  | none => rooms

/-! ## Adjacency Refiner (`StrictAdjacencyRefiner`) -/

/-- Axis-aligned bounding box, as a 4-tuple `(x1, y1, x2, y2)`. -/
def rb (r : Room) : ℚ × ℚ × ℚ × ℚ := (r.x, r.y, r.x + r.width, r.y + r.height)

/-- The `StrictAdjacencyRefiner._overlap` (strict interior intersection). -/
def overlapQ (a b : Room) : Bool :=
  let (ax1, ay1, ax2, ay2) := rb a
  let (bx1, by1, bx2, by2) := rb b
  !(decide (ax2 ≤ bx1) || decide (ax1 ≥ bx2) || decide (ay2 ≤ by1) || decide (ay1 ≥ by2))

/-- The `StrictAdjacencyRefiner._inside_bounds`. -/
def insideBounds (r : Room) (bounds : ℚ × ℚ × ℚ × ℚ) : Bool :=
  let (x1, y1, x2, y2) := rb r
  let (bx1, by1, bx2, by2) := bounds
  decide (bx1 ≤ x1) && decide (by1 ≤ y1) && decide (x2 ≤ bx2) && decide (y2 ≤ by2)

/-- The `StrictAdjacencyRefiner._manhattan`. -/
def manhattanQ (a b : Room) : ℚ :=
  |(a.center).1 - (b.center).1| + |(a.center).2 - (b.center).2|

/-- The `StrictAdjacencyRefiner._wall_overlap`: linear extent of the shared
wall for a snap candidate on the given side. -/
def wallOverlap (a b : Room) (side : String) : ℚ :=
  let (ax1, ay1, ax2, ay2) := rb a
  let (bx1, by1, bx2, by2) := rb b
  if side == "left" || side == "right" then min ay2 by2 - max ay1 by1
  else if side == "top" || side == "bottom" then min ax2 bx2 - max ax1 bx1
  else 0

/-- The `_overlaps_any(room, rooms, ignore)`: `room` is the mover currently
being test-placed (held at index `selfIdx` of the shared list, skipped by
object identity), `ignore` the anchor at `anchorIdx`. -/
def overlapsAny (m : Room) (rooms : List Room) (selfIdx anchorIdx : Nat) : Bool :=
  (List.range rooms.length).any fun j =>
    !(j == selfIdx) && !(j == anchorIdx) && overlapQ m (getR rooms j)

/-- Descending lexicographic comparison of `(score, x, y)` candidate
triples, as Python's `scored.sort(reverse=True)` orders them. -/
def lexGt (p q : ℚ × ℚ × ℚ) : Bool :=
  decide (q.1 < p.1) ||
    (p.1 == q.1 && (decide (q.2.1 < p.2.1) ||
      (p.2.1 == q.2.1 && decide (q.2.2 < p.2.2))))

/-- The `EDGE_MAP` of `_best_snap`. -/
def edgeMap (pref : String) : Option String :=
  if pref == "front" then some "top"
  else if pref == "rear" then some "bottom"
  else if pref == "left" then some "left"
  else if pref == "right" then some "right"
  else none

/-- The `StrictAdjacencyRefiner._best_snap`: evaluates the four flush
candidates, keeps those in bounds / non-overlapping / with shared wall
≥ 2.5, scores them, and returns the grid-snapped best, or `none`.
`scored.sort(reverse=True); scored[0]` is realised as the fold taking
the lexicographically greatest triple (ties keep the earlier candidate,
as the stable sort does). -/
def bestSnap (anchorIdx moverIdx : Nat) (rooms : List Room)
    (bounds : ℚ × ℚ × ℚ × ℚ) (edge : AdjEdge) : Option (ℚ × ℚ) :=
  let anchor := getR rooms anchorIdx
  let mover := getR rooms moverIdx
  let (ax1, ay1, ax2, ay2) := rb anchor
  let bw := mover.width
  let bh := mover.height
  let candidates : List (String × ℚ × ℚ) :=
    [("right", ax2 + 1/2, ay1),
     ("left", ax1 - bw - 1/2, ay1),
     ("top", ax1, ay1 - bh - 1/2),
     ("bottom", ax1, ay2 + 1/2)]
  let preferred : Option String := edge.edgePreference.bind edgeMap
  let scored : List (ℚ × ℚ × ℚ) := candidates.foldl (fun acc c =>
    let (side, cx, cy) := c
    let m := { mover with x := cx, y := cy }
    if !(insideBounds m bounds) then acc
    else if overlapsAny m rooms moverIdx anchorIdx then acc
    else
      let ov := wallOverlap anchor m side
      if ov < 5/2 then acc
      else
        let dist := manhattanQ anchor m
        let score := ov * 100 - dist * 2
        let score := if preferred == some side then score + ov * 100 else score
        acc ++ [(score, cx, cy)]) []
  match scored with
  | [] => none
  | c :: cs =>
      let best := cs.foldl (fun b c => if lexGt c b then c else b) c
      some (snapQ best.2.1, snapQ best.2.2)

/-- Priority score of an `attach` edge, per `StrictAdjacencyRefiner.refine`. -/
def attachPriority (anchor target : Room) : ℤ :=
  if target.purpose == "bathroom" && anchor.purpose == "bedroom" then 80
  else if (anchor.purpose == "kitchen" && target.purpose == "living")
       || (anchor.purpose == "living" && target.purpose == "kitchen") then 70
  else if target.purpose == "bathroom" && anchor.purpose == "living" then 75
  else 50

/-- Stable insertion into a descending-sorted list (used for Python's
stable `sort(key=..., reverse=True)`). -/
def insDesc (key : α → ℤ) (x : α) : List α → List α
  | [] => [x]
  | y :: ys => if key x ≤ key y then y :: insDesc key x ys else x :: y :: ys

/-- Stable descending sort by an integer key. -/
def sortDescBy (key : α → ℤ) (l : List α) : List α :=
  l.foldl (fun acc x => insDesc key x acc) []

/-- Force the master bathroom flush to the master bedroom's right side and
lock it — the unconditional first step of every `refine` iteration. -/
def forceMasterAttach (rooms : List Room) : List Room :=
  match findIdxP isMasterBed rooms, findIdxP isMasterBath rooms with
  | some bi, some ti =>
      let bed := getR rooms bi
      updR rooms ti fun r =>
        { r with x := bed.x + bed.width + 1/2, y := bed.y, locked := true }
  | _, _ => rooms

/-- The master bathroom as rewritten by the forcing step, when the
masters sit at indices `bi` and `ti`. -/
def forcedBath (rooms : List Room) (bi ti : Nat) : Room :=
  { getR rooms ti with
      x := (getR rooms bi).x + (getR rooms bi).width + 1/2
      y := (getR rooms bi).y
      locked := true }

/-- The attachment `(priority, anchorIdx, targetIdx, edge)` contributed
by one adjacency edge of the anchor at `ai` (skipping non-`attach`
kinds, unknown targets and master-bathroom targets). -/
def edgeAttachment (rooms : List Room) (ai : Nat) (edge : AdjEdge) :
    Option (ℤ × Nat × Nat × AdjEdge) :=
  if !(edge.kind == "attach") then none
  else
    match findIdxP (fun r => r.room_id == edge.toRoom) rooms with
    | none => none
    | some ti =>
        let anchor := getR rooms ai
        let target := getR rooms ti
        if target.purpose == "bathroom" && strHasLower "master" target.name then none
        else some (attachPriority anchor target, ai, ti, edge)

/-- Collect the `attach` attachments of one `refine` iteration (the
target is located through the id map built from the room list). -/
def collectAttachments (rooms : List Room) : List (ℤ × Nat × Nat × AdjEdge) :=
  (List.range rooms.length).foldl (fun acc ai =>
    (getR rooms ai).adjacency.foldl (fun acc edge =>
      match edgeAttachment rooms ai edge with
      | none => acc
      | some att => acc ++ [att]) acc) []

/-- Process one sorted attachment: skip circulation endpoints and locked
targets, otherwise move the target to its best snap position. -/
def processAttachment (bounds : ℚ × ℚ × ℚ × ℚ) (rooms : List Room)
    (att : ℤ × Nat × Nat × AdjEdge) : List Room :=
  let (_, ai, ti, edge) := att
  let anchor := getR rooms ai
  let target := getR rooms ti
  if anchor.purpose == "circulation" || target.purpose == "circulation" then rooms
  else if target.locked then rooms
  else
    match bestSnap ai ti rooms bounds edge with
    | some (bx, by_) => updR rooms ti fun r => { r with x := bx, y := by_ }
    | none => rooms

/-- One iteration of `StrictAdjacencyRefiner.refine`: the master-pair
forcing, then the collected attachments processed in stable descending
priority order. -/
def refineIteration (bounds : ℚ × ℚ × ℚ × ℚ) (rooms : List Room) : List Room :=
  (sortDescBy (fun a => a.1) (collectAttachments (forceMasterAttach rooms))).foldl
    (processAttachment bounds) (forceMasterAttach rooms)

/-- The final grid snap of `refine`. -/
def snapRoom (r : Room) : Room := { r with x := snapQ r.x, y := snapQ r.y }

/-- The `StrictAdjacencyRefiner.refine`. -/
def refine (bounds : ℚ × ℚ × ℚ × ℚ) : Nat → List Room → List Room
  | 0, rooms => rooms.map snapRoom
  | n + 1, rooms => refine bounds n (refineIteration bounds rooms)

/-! ## Overlap Resolver (`StrictOverlapResolver`, CLEARANCE = 1.0,
MAX_ITERS = 200) -/

/-- The `StrictOverlapResolver._is_master_pair`. -/
def isMasterPair (a b : Room) : Bool :=
  strHasLower "master" a.name && strHasLower "master" b.name &&
    ((a.purpose == "bedroom" && b.purpose == "bathroom") ||
     (a.purpose == "bathroom" && b.purpose == "bedroom"))

/-- The `StrictOverlapResolver._push_away`: relocate the mover flush against
the anchor on the axis of minimum penetration, plus clearance 1.0;
returns the new mover. -/
def pushAway (mover anchor : Room) : Room :=
  let (ax1, ay1, ax2, ay2) := rb anchor
  let (mx1, my1, mx2, my2) := rb mover
  let dx_left := ax2 - mx1
  let dx_right := mx2 - ax1
  let dy_down := ay2 - my1
  let dy_up := my2 - ay1
  let min_overlap := min (min dx_left dx_right) (min dy_down dy_up)
  if min_overlap == dx_left then { mover with x := ax2 + 1 }
  else if min_overlap == dx_right then { mover with x := ax1 - mover.width - 1 }
  else if min_overlap == dy_down then { mover with y := ay2 + 1 }
  else { mover with y := ay1 - mover.height - 1 }

/-- The `StrictOverlapResolver._apply_rules`: returns (resolved?, a, b) after
the rule-precedence step. -/
def applyRules (a b : Room) : Bool × Room × Room :=
  if a.purpose == "kitchen" && b.purpose == "bedroom" then
    (true, a, { b with y := a.y + a.height + 1 })
  else if b.purpose == "kitchen" && a.purpose == "bedroom" then
    (true, { a with y := b.y + b.height + 1 }, b)
  else if a.purpose == "living" then
    (true, a, if !a.locked then pushAway b a else b)
  else if b.purpose == "living" then
    (true, if !b.locked then pushAway a b else a, b)
  else if a.purpose == "kitchen" then (true, a, pushAway b a)
  else if b.purpose == "kitchen" then (true, pushAway a b, b)
  else if strHasLower "foyer" a.name then (true, a, pushAway b a)
  else if strHasLower "foyer" b.name then (true, pushAway a b, b)
  else (false, a, b)

/-- The `StrictOverlapResolver._separate_by_priority`. -/
def separateByPriority (a b : Room) : Bool × Room × Room :=
  if a.locked then (true, a, pushAway b a)
  else if b.locked then (true, pushAway a b, b)
  else if a.priority > b.priority then (true, a, pushAway b a)
  else if b.priority > a.priority then (true, pushAway a b, b)
  else if a.area ≤ b.area then (true, pushAway a b, b)
  else (true, a, pushAway b a)

/-- The ordered index pairs `(i, j)`, `i < j`, visited by the resolver's
(and the door placer's) nested loops. -/
def pairIdxs (n : Nat) : List (Nat × Nat) :=
  ((List.range n).map fun i =>
    ((List.range n).filter fun j => decide (i < j)).map fun j => (i, j)).flatten

/-- One pair step of a resolver pass, threading `(rooms, changed,
overlaps_found)`. -/
def resolveStepPair (st : List Room × Bool × Nat) (ij : Nat × Nat) :
    List Room × Bool × Nat :=
  let (rooms, changed, ov) := st
  let a := getR rooms ij.1
  let b := getR rooms ij.2
  if !(overlapQ a b) then st
  else
    let ov := ov + 1
    if a.purpose == "circulation" && b.purpose == "circulation" then (rooms, changed, ov)
    else if a.locked && b.locked then (rooms, changed, ov)
    else if isMasterPair a b then (rooms, changed, ov)
    else
      let (resolved, a1, b1) := applyRules a b
      if resolved then (setR (setR rooms ij.1 a1) ij.2 b1, true, ov)
      else
        let (moved, a2, b2) := separateByPriority a b
        if moved then (setR (setR rooms ij.1 a2) ij.2 b2, true, ov)
        else (rooms, changed, ov)

/-- One full pass of `StrictOverlapResolver.resolve` over all pairs. -/
def resolvePass (rooms : List Room) : List Room × Bool × Nat :=
  (pairIdxs rooms.length).foldl resolveStepPair (rooms, false, 0)

/-- The bounded iteration of `resolve` (fuel = remaining iterations). -/
def resolveLoop : Nat → List Room → List Room
  | 0, rooms => rooms
  | n + 1, rooms =>
      let (rooms', changed, ov) := resolvePass rooms
      if !changed && ov == 0 then rooms' else resolveLoop n rooms'

/-- The `StrictOverlapResolver.resolve` (MAX_ITERS = 200). -/
def resolve (rooms : List Room) : List Room := resolveLoop 200 rooms

/-! ## Corridor Inserter / Merger -/

/-- The `_is_adjacent` shared by `CorridorInserter` (tolerance 1.0). -/
def isAdjacentQ (a b : Room) (tol : ℚ) : Bool :=
  let (ax1, ay1, ax2, ay2) := rb a
  let (bx1, by1, bx2, by2) := rb b
  if decide (|ax2 - bx1| < tol) || decide (|ax1 - bx2| < tol) then
    decide (min ay2 by2 - max ay1 by1 > 1)
  else if decide (|ay2 - by1| < tol) || decide (|ay1 - by2| < tol) then
    decide (min ax2 bx2 - max ax1 bx1 > 1)
  else false

/-- The Python `tuple(sorted([a, b]))` used to deduplicate corridor pairs. -/
def sortedPair (a b : String) : String × String :=
  if compare a b == Ordering.gt then (b, a) else (a, b)

/-- The `CorridorInserter.insert`: synthesize the living–master link plus one
corridor per unmet non-`near` adjacency edge (per unique unordered pair). -/
def corridorInsert (rooms : List Room) : List Room :=
  let livingIdx := findIdxP (fun r => r.purpose == "living") rooms
  let mbedIdx := findIdxP isMasterBed rooms
  let corridors0 : List Room :=
    match livingIdx, mbedIdx with
    | some li, some bi => [Room.make_corridor (getR rooms li) (getR rooms bi) 5]
    | _, _ => []
  let st := (List.range rooms.length).foldl (fun st ri =>
    let room := getR rooms ri
    room.adjacency.foldl (fun st edge =>
      let (corridors, seen) := st
      if edge.kind == "near" then st
      else
        match findIdxP (fun r => r.room_id == edge.toRoom) rooms with
        | none => st
        | some ti =>
            let target := getR rooms ti
            if isAdjacentQ room target 1 then st
            else
              let pair := sortedPair room.room_id target.room_id
              if seen.contains pair then st
              else (corridors ++ [Room.make_corridor room target 4], pair :: seen))
      st) (corridors0, ([] : List (String × String)))
  rooms ++ st.1

/-- The `CorridorMerger._can_merge` (tolerance 0.5). -/
def canMergeCorr (a b : Room) : Bool :=
  let tol : ℚ := 1/2
  if !(a.purpose == "circulation") || !(b.purpose == "circulation") then false
  else
    let (ax1, ay1, ax2, ay2) := rb a
    let (bx1, by1, bx2, by2) := rb b
    if decide (|ax1 - bx1| < tol) && decide (|ax2 - bx2| < tol) then
      !(decide (ay2 < by1) || decide (by2 < ay1))
    else if decide (|ay1 - by1| < tol) && decide (|ay2 - by2| < tol) then
      !(decide (ax2 < bx1) || decide (bx2 < ax1))
    else false

/-- Single forward scan absorbing mergeable corridors into the growing
bounding box (the scan compares against the *original* base rectangle,
exactly as the Python inner `while` does). -/
def absorbCorr (base : Room) (bb : ℚ × ℚ × ℚ × ℚ) :
    List Room → (ℚ × ℚ × ℚ × ℚ) × List Room
  | [] => (bb, [])
  | c :: cs =>
      if canMergeCorr base c then
        let (cx1, cy1, cx2, cy2) := rb c
        let (bx1, by1, bx2, by2) := bb
        absorbCorr base (min bx1 cx1, min by1 cy1, max bx2 cx2, max by2 cy2) cs
      else
        let (bb', rest) := absorbCorr base bb cs
        (bb', c :: rest)

/-- The outer `while corridors:` loop of `CorridorMerger.merge`
(fuel-bounded; each step consumes at least the popped base, so the
initial list length is always enough fuel). -/
def mergeCorrLoop : Nat → List Room → List Room
  | 0, _ => []
  | _, [] => []
  | fuel + 1, base :: rest =>
      let (bb, remaining) := absorbCorr base (rb base) rest
      let (bx1, by1, bx2, by2) := bb
      let base := { base with
        x := bx1
        y := by1
        width := max (bx2 - bx1) 4
        height := max (by2 - by1) 4 }
      base :: mergeCorrLoop fuel remaining

/-- The `CorridorMerger.merge`. -/
def corridorMerge (rooms : List Room) : List Room :=
  let corridors := rooms.filter fun r => r.purpose == "circulation"
  let others := rooms.filter fun r => !(r.purpose == "circulation")
  others ++ mergeCorrLoop corridors.length corridors

/-! ## Door Placer -/

/-- The `Door` dataclass. -/
structure Door where
  from_room : String
  to_room : String
  x : ℚ
  y : ℚ
  orientation : String
  deriving Repr, DecidableEq, Inhabited

/-- The `DoorPlacer._shared_wall` (tol = 0.2): the four wall pairings are
tested in the fixed order a-right, a-left, a-bottom, a-top; the first
with near-collinearity and overlap > 2 yields the door position. -/
def sharedWall (a b : Room) : Option (String × ℚ × ℚ) :=
  let tol : ℚ := 1/5
  let (ax1, ay1, ax2, ay2) := rb a
  let (bx1, by1, bx2, by2) := rb b
  let ov_v := min ay2 by2 - max ay1 by1
  let ov_h := min ax2 bx2 - max ax1 bx1
  if decide (|ax2 - bx1| < tol) && decide (ov_v > 2) then
    some ("vertical", ax2, max ay1 by1 + ov_v / 2)
  else if decide (|ax1 - bx2| < tol) && decide (ov_v > 2) then
    some ("vertical", ax1, max ay1 by1 + ov_v / 2)
  else if decide (|ay2 - by1| < tol) && decide (ov_h > 2) then
    some ("horizontal", max ax1 bx1 + ov_h / 2, ay2)
  else if decide (|ay1 - by2| < tol) && decide (ov_h > 2) then
    some ("horizontal", max ax1 bx1 + ov_h / 2, ay1)
  else none

/-- The door emitted for the ordered pair `(a, b)` (`a` earlier in the
room list), `none` when there is no qualifying shared wall or the pair
is excluded (private/private without a bathroom, circulation pair). -/
def pairDoor (a b : Room) : Option Door :=
  match sharedWall a b with
  | none => none
  | some (orientation, dx, dy) =>
      if a.zone == "private" && b.zone == "private" &&
         !(a.purpose == "bathroom" || b.purpose == "bathroom") then none
      else if a.purpose == "circulation" && b.purpose == "circulation" then none
      else some { from_room := a.room_id, to_room := b.room_id
                  x := dx, y := dy, orientation := orientation }

/-- The `DoorPlacer.place`: `for i, a in enumerate(rooms): for b in rooms[i+1:]`
realised as structural recursion over the list. -/
def placeDoors : List Room → List Door
  | [] => []
  | a :: rest => rest.filterMap (pairDoor a) ++ placeDoors rest

/-! ## Room Expander and final normalisation -/

/-- The `can_expand(room, rooms, bounds, dx, dy, clearance, allow_into_circulation)`.
The room under test sits at `selfIdx` in the shared list; the Python
`r is room` identity skip becomes an index comparison. -/
def canExpand (selfIdx : Nat) (rooms : List Room) (bounds : ℚ × ℚ × ℚ × ℚ)
    (dx dy clearance : ℚ) (allowIntoCirculation : Bool) : Bool :=
  let room := getR rooms selfIdx
  let test := { room with width := room.width + dx, height := room.height + dy }
  let (bx1, by1, bx2, by2) := bounds
  let (x1, y1, x2, y2) := rb test
  if decide (x1 < bx1) || decide (y1 < by1) || decide (x2 > bx2) || decide (y2 > by2) then
    false
  else
    (List.range rooms.length).all fun j =>
      if j == selfIdx then true
      else
        let r := getR rooms j
        if allowIntoCirculation && r.purpose == "circulation" then true
        else
          let (rx1, ry1, rx2, ry2) := rb r
          decide (x2 + clearance ≤ rx1) || decide (x1 ≥ rx2 + clearance) ||
            decide (y2 + clearance ≤ ry1) || decide (y1 ≥ ry2 + clearance)

/-- The `clamp_to_bounds`. -/
def clampToBounds (bounds : ℚ × ℚ × ℚ × ℚ) (room : Room) : Room :=
  let (xmin, ymin, xmax, ymax) := bounds
  { room with x := max xmin (min room.x (xmax - room.width))
              y := max ymin (min room.y (ymax - room.height)) }

/-- Per-purpose step budget of Phase 8. -/
def maxSteps (r : Room) : Nat :=
  if r.purpose == "living" then 30
  else if r.purpose == "kitchen" then 18
  else if r.purpose == "bedroom" && strHasLower "master" r.name then 20
  else if r.purpose == "bedroom" then 15
  else 10

/-- The per-axis growth loop: grow by 0.5 while `can_expand` approves,
stop on the first failure. -/
def growAxis (bounds : ℚ × ℚ × ℚ × ℚ) (allowCirc : Bool) (horizontal : Bool)
    (i : Nat) : Nat → List Room → List Room
  | 0, rooms => rooms
  | n + 1, rooms =>
      let dx : ℚ := if horizontal then 1/2 else 0
      let dy : ℚ := if horizontal then 0 else 1/2
      if canExpand i rooms bounds dx dy (1/2) allowCirc then
        growAxis bounds allowCirc horizontal i n
          (updR rooms i fun r =>
            { r with width := r.width + dx, height := r.height + dy })
      else rooms

/-- Phase 8 of `generate_layout` ("intelligent room expansion"):
rooms processed in stable descending priority order, bathrooms and
circulation skipped, width then height grown.
`allowCirc` is the `allow_into_circulation` argument; the pipeline
passes `False`. -/
def expandRooms (bounds : ℚ × ℚ × ℚ × ℚ) (allowCirc : Bool)
    (rooms : List Room) : List Room :=
  let order := sortDescBy (fun i => (getR rooms i).priority) (List.range rooms.length)
  order.foldl (fun rooms i =>
    let r := getR rooms i
    if r.purpose == "bathroom" || r.purpose == "circulation" then rooms
    else
      let steps := maxSteps r
      let rooms := growAxis bounds allowCirc true i steps rooms
      growAxis bounds allowCirc false i steps rooms) rooms

/-- The `polish_layout`: straighten corridors to integer coordinates, snap
bathroom x to the even grid. -/
def polishRoom (r : Room) : Room :=
  if r.purpose == "circulation" then
    { r with x := (pyRound r.x : ℚ), y := (pyRound r.y : ℚ) }
  else if r.purpose == "bathroom" then
    { r with x := (pyRound (r.x / 2) : ℚ) * 2 }
  else r

/-! ## Quality Scorer -/

/-- The `LayoutQualityScorer._shares_wall` (tol = 0.5). -/
def sharesWallScore (a b : Room) : Bool :=
  let tol : ℚ := 1/2
  let (ax1, ay1, ax2, ay2) := rb a
  let (bx1, by1, bx2, by2) := rb b
  if decide (|ax2 - bx1| < tol) || decide (|ax1 - bx2| < tol) then
    decide (min ay2 by2 - max ay1 by1 > 2)
  else if decide (|ay2 - by1| < tol) || decide (|ay1 - by2| < tol) then
    decide (min ax2 bx2 - max ax1 bx1 > 2)
  else false

/-- The `LayoutQualityScorer.score`. -/
def scoreLayout (rooms : List Room) (doors : List Door) : ℤ :=
  let living := rooms.find? fun r => r.purpose == "living"
  let corridors := rooms.filter fun r => r.purpose == "circulation"
  let bedrooms := rooms.filter fun r => r.purpose == "bedroom"
  let bathrooms := rooms.filter fun r => r.purpose == "bathroom"
  let kitchen := rooms.find? fun r => r.purpose == "kitchen"
  let score : ℤ := 100
  let score := match living with
    | some l =>
        let living_doors := doors.filter fun d =>
          d.from_room == l.room_id || d.to_room == l.room_id
        if living_doors.length > 2 then
          score - ((living_doors.length : ℤ) - 2) * 10
        else score
    | none => score
  let score := match kitchen with
    | some k => score - 15 * ((bedrooms.filter fun bed => sharesWallScore k bed).length : ℤ)
    | none => score
  let score := match living with
    | some l => score - 10 * ((bathrooms.filter fun bath => sharesWallScore l bath).length : ℤ)
    | none => score
  let score := if corridors.length > 3 then
      score - ((corridors.length : ℤ) - 3) * 5
    else score
  let score := score + max 0 (10 - (rooms.length : ℤ))
  max score 0

/-! ## `generate_layout` pipeline -/

/-- A room record of the input plan JSON (the fields `generate_layout`
reads; `dimensions_ft` is the two-element `[width, height]` list, and
`adjacency_edges` is optional — `r.get("adjacency_edges", [])`). -/
structure RoomJson where
  room_id : String
  name : String
  purpose : String
  dimensions_ft : List ℚ
  zone : String
  adjacency_edges : Option (List AdjEdge) := none
  deriving Repr, DecidableEq, Inhabited

/-- The plan object.  A missing mandatory `rooms` key is modelled as
`none`; `plan_json["rooms"]` then raises `KeyError`. -/
structure PlanJson where
  rooms : Option (List RoomJson) := none
  deriving Repr, DecidableEq, Inhabited

/-- The `Room(...)` construction at the top of `generate_layout`. -/
def toRoom (r : RoomJson) : Room :=
  { room_id := r.room_id
    name := r.name
    purpose := r.purpose
    width := r.dimensions_ft.getD 0 0
    height := r.dimensions_ft.getD 1 0
    zone := r.zone
    adjacency := r.adjacency_edges.getD [] }

/-- A room entry of the returned layout dict. -/
structure RoomOut where
  room_id : String
  name : String
  purpose : String
  zone : String
  x : ℚ
  y : ℚ
  width : ℚ
  height : ℚ
  deriving Repr, DecidableEq, Inhabited

def projectRoom (r : Room) : RoomOut :=
  { room_id := r.room_id, name := r.name, purpose := r.purpose, zone := r.zone
    x := r.x, y := r.y, width := r.width, height := r.height }

/-- The dict returned by `generate_layout`. -/
structure LayoutResult where
  bounds : ℚ × ℚ × ℚ × ℚ
  quality_score : ℤ
  rooms : List RoomOut
  doors : List Door
  deriving Repr, DecidableEq, Inhabited

/-- Lock the first room matching a predicate (the post-Phase-4
`living_room.locked = True` etc.). -/
def lockFirst (p : Room → Bool) (rooms : List Room) : List Room :=
  match findIdxP p rooms with
  | some i => updR rooms i fun r => { r with locked := true }
  | none => rooms

/-- Phases 1–8 of `generate_layout` on the constructed room list.
`allowCirc` is the `allow_into_circulation` flag passed to `can_expand`
in Phase 8; the source passes `False`. -/
def pipelineCore (allowCirc : Bool) (rs : List RoomJson) : LayoutResult :=
  let bounds : ℚ × ℚ × ℚ × ℚ := (5, 5, 35, 35)
  let rooms := rs.map toRoom
  -- Phase 1: strategic placement (plot 40×40, setbacks 5 on all sides)
  let rooms := zonePlace 40 40 5 5 5 5 rooms
  -- Phase 2: enforce adjacencies
  let rooms := refine bounds 3 rooms
  -- Phase 3: resolve overlaps
  let rooms := resolve rooms
  -- Phase 4: re-enforce critical adjacencies
  let rooms := refine bounds 2 rooms
  -- lock primary rooms
  let rooms := lockFirst (fun r => r.purpose == "living") rooms
  let rooms := lockFirst (fun r => r.purpose == "kitchen") rooms
  let rooms := lockFirst (fun r => strHasLower "foyer" r.name) rooms
  -- Phase 5: corridor insertion, overlap resolution, corridor merging
  let rooms := corridorInsert rooms
  let rooms := resolve rooms
  let rooms := corridorMerge rooms
  let rooms := rooms.map fun r =>
    if r.purpose == "circulation" then { r with locked := true } else r
  -- Phase 6: final adjacency pass
  let rooms := refine bounds 1 rooms
  -- Phase 7: door placement
  let doors := placeDoors rooms
  -- Phase 8: room expansion, then clamp
  let rooms := expandRooms bounds allowCirc rooms
  let rooms := rooms.map (clampToBounds bounds)
  -- polish, then score
  let rooms := rooms.map polishRoom
  let quality_score := scoreLayout rooms doors
  { bounds := bounds
    quality_score := quality_score
    rooms := rooms.map projectRoom
    doors := doors }

/-- The `generate_layout(plan_json)`.  Reading the missing `rooms` key is a
`KeyError` that aborts before any placement work. -/
def generateLayout (plan : PlanJson) : Except String LayoutResult :=
  match plan.rooms with
  | none => .error "KeyError: rooms"
  | some rs => .ok (pipelineCore false rs)

/-! ## Derived predicates used by the claims -/

/-- Two output rectangles overlap (interiors intersect) — the §3
no-overlap invariant, with the same strict-inequality reading as the
resolver's `_overlaps`. -/
def overlapOut (a b : RoomOut) : Bool :=
  !(decide (a.x + a.width ≤ b.x) || decide (a.x ≥ b.x + b.width) ||
    decide (a.y + a.height ≤ b.y) || decide (a.y ≥ b.y + b.height))

/-- An output rectangle lies inside the buildable bounds (5, 5, 35, 35). -/
def inBuildable (r : RoomOut) : Bool :=
  decide (5 ≤ r.x) && decide (5 ≤ r.y) &&
    decide (r.x + r.width ≤ 35) && decide (r.y + r.height ≤ 35)

/-- Length of the wall the two output rectangles share on a vertical
edge (their common vertical extent), and on a horizontal edge. -/
def vertSharedExtent (a b : RoomOut) : ℚ :=
  min (a.y + a.height) (b.y + b.height) - max a.y b.y

def horizSharedExtent (a b : RoomOut) : ℚ :=
  min (a.x + a.width) (b.x + b.width) - max a.x b.x

/-! ## Concrete pipeline inputs for the counterexamples -/

/-- Two identical 20×10 store rooms (no special roles, no adjacency). -/
def storeA : RoomJson :=
  { room_id := "s1", name := "Store A", purpose := "store"
    dimensions_ft := [20, 10], zone := "public" }

def storeB : RoomJson :=
  { room_id := "s2", name := "Store B", purpose := "store"
    dimensions_ft := [20, 10], zone := "public" }

def planC1 : PlanJson := { rooms := some [storeA, storeB] }

def layoutC1 : LayoutResult :=
  match generateLayout planC1 with
  | .ok L => L
  | .error _ => default

/-- A 12×10 master bedroom with a 6×2 master bathroom. -/
def mbedJ : RoomJson :=
  { room_id := "mb", name := "Master Bedroom", purpose := "bedroom"
    dimensions_ft := [12, 10], zone := "private" }

def mbathJ : RoomJson :=
  { room_id := "mba", name := "Master Bathroom", purpose := "bathroom"
    dimensions_ft := [6, 2], zone := "private" }

def planC2 : PlanJson := { rooms := some [mbedJ, mbathJ] }

def layoutC2 : LayoutResult :=
  match generateLayout planC2 with
  | .ok L => L
  | .error _ => default

/-- A single 31×31 room — wider and taller than the 30×30 buildable
rectangle. -/
def bigJ : RoomJson :=
  { room_id := "big", name := "Big Store", purpose := "store"
    dimensions_ft := [31, 31], zone := "public" }

def planC3 : PlanJson := { rooms := some [bigJ] }

def layoutC3 : LayoutResult :=
  match generateLayout planC3 with
  | .ok L => L
  | .error _ => default

/-- A 10×10 living room with a 6×20 circulation hall placed flush on its
left — the hall blocks expansion exactly when circulation is part of the
collision check. -/
def livJ : RoomJson :=
  { room_id := "lv", name := "Living Room", purpose := "living"
    dimensions_ft := [10, 10], zone := "public" }

def circJ : RoomJson :=
  { room_id := "c1", name := "Hall", purpose := "circulation"
    dimensions_ft := [6, 20], zone := "circulation" }

def planC4 : PlanJson := { rooms := some [livJ, circJ] }

def layoutC4 : LayoutResult :=
  match generateLayout planC4 with
  | .ok L => L
  | .error _ => default

/-- Modelled from the spec (claim C4 wording): the same pipeline with
rooms of purpose circulation excluded from the expansion collision check
(`allow_into_circulation=True`), i.e. rooms may be grown into
circulation space. -/
def layoutC4claimed : LayoutResult := pipelineCore true [livJ, circJ]

/-! ## Envelope Builder: `merge_walls` (`envelope_builder_mark2.py`) -/

/-- The `WallSegment` dataclass. -/
structure WallSegment where
  x1 : ℚ
  y1 : ℚ
  x2 : ℚ
  y2 : ℚ
  kind : String
  deriving Repr, DecidableEq, Inhabited

/-- EPS = 0.01. -/
def EPS : ℚ := 1/100

/-- The merge attempt of one `merge_walls` inner-loop step: `w` merged
into the already-merged segment `m` (vertical attempt first, then
horizontal), or `none` when neither applies. -/
def mergeInto (w m : WallSegment) : Option WallSegment :=
  if !(w.kind == m.kind) then none
  else if decide (|w.x1 - w.x2| < EPS) && decide (|m.x1 - m.x2| < EPS) &&
          decide (|w.x1 - m.x1| < EPS) &&
          (decide (|w.y2 - m.y1| < EPS) || decide (|w.y1 - m.y2| < EPS)) then
    some { m with y1 := min m.y1 (min w.y1 w.y2), y2 := max m.y2 (max w.y1 w.y2) }
  else if decide (|w.y1 - w.y2| < EPS) && decide (|m.y1 - m.y2| < EPS) &&
          decide (|w.y1 - m.y1| < EPS) &&
          (decide (|w.x2 - m.x1| < EPS) || decide (|w.x1 - m.x2| < EPS)) then
    some { m with x1 := min m.x1 (min w.x1 w.x2), x2 := max m.x2 (max w.x1 w.x2) }
  else none

/-- Scan the merged list for the first segment `w` can merge into; on
success that segment is replaced in place (`break` after the merge). -/
def mergeScan (w : WallSegment) : List WallSegment → Option (List WallSegment)
  | [] => none
  | m :: ms =>
      match mergeInto w m with
      | some m' => some (m' :: ms)
      | none => (mergeScan w ms).map (m :: ·)

/-- The `merge_walls`. -/
def mergeWalls (walls : List WallSegment) : List WallSegment :=
  walls.foldl (fun merged w =>
    match mergeScan w merged with
    | some merged' => merged'
    | none => merged ++ [w]) []

/-- Three collinear vertical unit segments listed so that the first pass
bridges only two of them: `merge_walls` leaves two touching segments
that a second pass would merge. -/
def wallsC7 : List WallSegment :=
  [{ x1 := 0, y1 := 0, x2 := 0, y2 := 1, kind := "outer" },
   { x1 := 0, y1 := 2, x2 := 0, y2 := 3, kind := "outer" },
   { x1 := 0, y1 := 1, x2 := 0, y2 := 2, kind := "outer" }]

/-- Two separated parallel segments: no pair is mergeable. -/
def wallsC7w : List WallSegment :=
  [{ x1 := 0, y1 := 0, x2 := 0, y2 := 1, kind := "outer" },
   { x1 := 5, y1 := 0, x2 := 5, y2 := 1, kind := "outer" }]

/-! ## Claim-side comparison definitions -/

/-- Modelled from the claim wording (C5): a living, kitchen or foyer
room in the pair pushes the other away only when it is unlocked;
otherwise the generic lock/priority/area fallback applies. -/
def c5ClaimStep (a b : Room) : Room × Room :=
  if a.purpose == "kitchen" && b.purpose == "bedroom" then
    (a, { b with y := a.y + a.height + 1 })
  else if b.purpose == "kitchen" && a.purpose == "bedroom" then
    ({ a with y := b.y + b.height + 1 }, b)
  else if a.purpose == "living" && !a.locked then (a, pushAway b a)
  else if b.purpose == "living" && !b.locked then (pushAway a b, b)
  else if a.purpose == "kitchen" && !a.locked then (a, pushAway b a)
  else if b.purpose == "kitchen" && !b.locked then (pushAway a b, b)
  else if strHasLower "foyer" a.name && !a.locked then (a, pushAway b a)
  else if strHasLower "foyer" b.name && !b.locked then (pushAway a b, b)
  else if a.locked then (a, pushAway b a)
  else if b.locked then (pushAway a b, b)
  else if a.priority > b.priority then (a, pushAway b a)
  else if b.priority > a.priority then (pushAway a b, b)
  else if a.area ≤ b.area then (pushAway a b, b)
  else (a, pushAway b a)

/-- The room-pair outcome of one resolver step on an overlapping,
non-skipped pair: `_apply_rules`, falling back to
`_separate_by_priority` when no rule fires. -/
def resolvePairRooms (a b : Room) : Room × Room :=
  let (resolved, a1, b1) := applyRules a b
  if resolved then (a1, b1)
  else
    let (_, a2, b2) := separateByPriority a b
    (a2, b2)

/-- Case analysis of the resolver's actual precedence, as amended:
kitchen/bedroom stacking; then living (pushes only when unlocked, but
still consumes the overlap); then kitchen and foyer (push regardless of
lock state); otherwise the fallback. -/
inductive C5Case where
  | stackBedroomBelowKitchen (kitchenIsB : Bool)
  | anchorRole (anchorIsA : Bool) (push : Bool)
  | fallbackPush (pushA : Bool)
  deriving Repr, DecidableEq

def c5Classify (a b : Room) : C5Case :=
  if a.purpose == "kitchen" && b.purpose == "bedroom" then .stackBedroomBelowKitchen false
  else if b.purpose == "kitchen" && a.purpose == "bedroom" then .stackBedroomBelowKitchen true
  else if a.purpose == "living" then .anchorRole true !a.locked
  else if b.purpose == "living" then .anchorRole false !b.locked
  else if a.purpose == "kitchen" then .anchorRole true true
  else if b.purpose == "kitchen" then .anchorRole false true
  else if strHasLower "foyer" a.name then .anchorRole true true
  else if strHasLower "foyer" b.name then .anchorRole false true
  else if a.locked then .fallbackPush false
  else if b.locked then .fallbackPush true
  else if a.priority > b.priority then .fallbackPush false
  else if b.priority > a.priority then .fallbackPush true
  else if a.area ≤ b.area then .fallbackPush true
  else .fallbackPush false

def c5Apply : C5Case → Room → Room → Room × Room
  | .stackBedroomBelowKitchen false, a, b => (a, { b with y := a.y + a.height + 1 })
  | .stackBedroomBelowKitchen true, a, b => ({ a with y := b.y + b.height + 1 }, b)
  | .anchorRole true true, a, b => (a, pushAway b a)
  | .anchorRole true false, a, b => (a, b)
  | .anchorRole false true, a, b => (pushAway a b, b)
  | .anchorRole false false, a, b => (a, b)
  | .fallbackPush true, a, b => (pushAway a b, b)
  | .fallbackPush false, a, b => (a, pushAway b a)

/-- The amended C5 description as a function. -/
def amendedStep (a b : Room) : Room × Room := c5Apply (c5Classify a b) a b

/-- A locked living room overlapping an unlocked store room. -/
def livingLockedC5 : Room :=
  { room_id := "lv", name := "Living Room", purpose := "living", width := 10,
    height := 10, zone := "public", adjacency := [], x := 5, y := 5,
    locked := true, priority := 100 }

def storeC5 : Room :=
  { room_id := "st", name := "Store", purpose := "store", width := 10,
    height := 10, zone := "public", adjacency := [], x := 10, y := 10,
    locked := false, priority := 50 }

/-- The four wall pairings of `_shared_wall` in test order (a-right,
a-left, a-bottom, a-top), each as `((gap, overlap), door)`. -/
def doorCandidates (a b : Room) : List ((ℚ × ℚ) × (String × ℚ × ℚ)) :=
  let (ax1, ay1, ax2, ay2) := rb a
  let (bx1, by1, bx2, by2) := rb b
  let ov_v := min ay2 by2 - max ay1 by1
  let ov_h := min ax2 bx2 - max ax1 bx1
  [((|ax2 - bx1|, ov_v), ("vertical", ax2, max ay1 by1 + ov_v / 2)),
   ((|ax1 - bx2|, ov_v), ("vertical", ax1, max ay1 by1 + ov_v / 2)),
   ((|ay2 - by1|, ov_h), ("horizontal", max ax1 bx1 + ov_h / 2, ay2)),
   ((|ay1 - by2|, ov_h), ("horizontal", max ax1 bx1 + ov_h / 2, ay1))]

/-- The first candidate whose collinearity gap is within 0.2 and whose
overlap exceeds 2 — the claim-side reading of `_shared_wall`. -/
def firstQualifyingWall (a b : Room) : Option (String × ℚ × ℚ) :=
  ((doorCandidates a b).find? fun c =>
    decide (c.1.1 < 1/5) && decide (c.1.2 > 2)).map (·.2)

/-- Witness rooms for the component-level theorems. -/
def bedW : Room :=
  { room_id := "mb", name := "Master Bedroom", purpose := "bedroom", width := 12,
    height := 10, zone := "private", adjacency := [], x := 6, y := 20 }

def bathW : Room :=
  { room_id := "mba", name := "Master Bathroom", purpose := "bathroom", width := 6,
    height := 5, zone := "private", adjacency := [], x := 6, y := 30 }

def roomC3w : Room :=
  { room_id := "r", name := "Store", purpose := "store", width := 10,
    height := 10, zone := "public", adjacency := [], x := 0, y := 0 }

/-! # Theorems -/

/-! ## Helper lemmas about the index-addressed room store -/

theorem getR_set_self {l : List Room} {i : Nat} (h : i < l.length) (v : Room) :
    getR (setR l i v) i = v := by
  induction l generalizing i with
  | nil => simp at h
  | cons r rs ih =>
      cases i with
      | zero => rfl
      | succ n =>
          simp only [setR, List.set, getR, List.getD, List.get?] at *
          exact ih (Nat.lt_of_succ_lt_succ h)

theorem getR_set_ne {l : List Room} {i j : Nat} (h : i ≠ j) (v : Room) :
    getR (setR l i v) j = getR l j := by
  induction l generalizing i j with
  | nil => rfl
  | cons r rs ih =>
      cases i with
      | zero =>
          cases j with
          | zero => exact absurd rfl h
          | succ m => rfl
      | succ n =>
          cases j with
          | zero => rfl
          | succ m => exact ih (fun hnm => h (congrArg Nat.succ hnm))

theorem findIdxP_spec {p : Room → Bool} {l : List Room} {i : Nat}
    (h : findIdxP p l = some i) : i < l.length ∧ p (getR l i) = true := by
  induction l generalizing i with
  | nil => simp [findIdxP] at h
  | cons r rs ih =>
      by_cases hp : p r
      · simp only [findIdxP, if_pos hp] at h
        cases h
        exact ⟨Nat.succ_pos _, hp⟩
      · simp only [findIdxP, if_neg hp] at h
        cases hfind : findIdxP p rs with
        | none => rw [hfind] at h; simp at h
        | some n =>
            rw [hfind] at h
            have hni : n + 1 = i := by simpa using h
            obtain ⟨hlt, hpr⟩ := ih hfind
            subst hni
            exact ⟨Nat.succ_lt_succ hlt, hpr⟩

theorem findIdxP_set {p : Room → Bool} {l : List Room} {i : Nat} {v : Room}
    (hp : p v = p (getR l i)) : findIdxP p (setR l i v) = findIdxP p l := by
  induction l generalizing i with
  | nil => rfl
  | cons r rs ih =>
      cases i with
      | zero =>
          show findIdxP p (v :: rs) = findIdxP p (r :: rs)
          unfold findIdxP
          rw [show p v = p r from hp]
      | succ n =>
          show findIdxP p (r :: setR rs n v) = findIdxP p (r :: rs)
          unfold findIdxP
          rw [ih (i := n) hp]

theorem getR_mem {l : List Room} {i : Nat} (h : i < l.length) : getR l i ∈ l := by
  induction l generalizing i with
  | nil => simp at h
  | cons r rs ih =>
      cases i with
      | zero => exact List.mem_cons_self _ _
      | succ n => exact List.mem_cons_of_mem _ (ih (Nat.lt_of_succ_lt_succ h))

theorem getR_map_lt {l : List Room} {i : Nat} (f : Room → Room) (h : i < l.length) :
    getR (l.map f) i = f (getR l i) := by
  induction l generalizing i with
  | nil => simp at h
  | cons r rs ih =>
      cases i with
      | zero => rfl
      | succ n => exact ih (Nat.lt_of_succ_lt_succ h)

/-! ## C1 -/

/-- C1 counterexample: `generate_layout` on two 20×10 store rooms ends
with the two rooms' rectangles overlapping (the resolver separates them,
but the final `clamp_to_bounds` pushes both back into the buildable
rectangle on top of each other), refuting the end-of-pipeline no-overlap
invariant. -/
theorem C1_counterexample :
    (layoutC1.rooms.getD 0 default).room_id ≠ (layoutC1.rooms.getD 1 default).room_id ∧
    overlapOut (layoutC1.rooms.getD 0 default) (layoutC1.rooms.getD 1 default) = true := by
  exact ⟨by decide, by decide⟩

theorem resolveStepPair_clean {rooms : List Room} {p : Nat × Nat}
    (h : overlapQ (getR rooms p.1) (getR rooms p.2) = false) :
    resolveStepPair (rooms, false, 0) p = (rooms, false, 0) := by
  simp only [resolveStepPair, h]
  rfl

theorem foldl_resolveStepPair_clean {rooms : List Room}
    (l : List (Nat × Nat))
    (h : ∀ p ∈ l, overlapQ (getR rooms p.1) (getR rooms p.2) = false) :
    l.foldl resolveStepPair (rooms, false, 0) = (rooms, false, 0) := by
  induction l with
  | nil => rfl
  | cons p rest ih =>
      rw [List.foldl_cons, resolveStepPair_clean (h p (List.mem_cons_self _ _))]
      exact ih fun q hq => h q (List.mem_cons_of_mem _ hq)

/-- C1 amended: a room list in which no pair of rooms overlaps is a
fixed point of `StrictOverlapResolver.resolve` — the resolver's early
exit (a full pass with zero overlaps found) returns the layout unchanged
and overlap-free.  The end-of-pipeline invariant itself fails because
`clamp_to_bounds` runs after the last resolver pass. -/
theorem C1_amended (rooms : List Room)
    (h : ∀ p ∈ pairIdxs rooms.length,
      overlapQ (getR rooms p.1) (getR rooms p.2) = false) :
    resolve rooms = rooms := by
  have hpass : resolvePass rooms = (rooms, false, 0) :=
    foldl_resolveStepPair_clean (pairIdxs rooms.length) h
  show resolveLoop 200 rooms = rooms
  rw [resolveLoop, hpass]
  rfl

theorem C1_amended_witness :
    resolve [bedW, bathW] = [bedW, bathW] :=
  C1_amended [bedW, bathW] (by decide)

/-! ## C2 -/

/-- C2 counterexample: on a 12×10 master bedroom with a 6×2 master
bathroom, `generate_layout` ends with the pair flush on a vertical edge
(`bed.x + bed.width = bath.x`, horizontal shared extent 0), but the
shared wall has length 2 — below the claimed 2.5-unit minimum. -/
theorem C2_counterexample :
    (layoutC2.rooms.getD 0 default).purpose = "bedroom" ∧
    (layoutC2.rooms.getD 1 default).purpose = "bathroom" ∧
    (layoutC2.rooms.getD 0 default).x + (layoutC2.rooms.getD 0 default).width
      = (layoutC2.rooms.getD 1 default).x ∧
    horizSharedExtent (layoutC2.rooms.getD 0 default) (layoutC2.rooms.getD 1 default) = 0 ∧
    vertSharedExtent (layoutC2.rooms.getD 0 default) (layoutC2.rooms.getD 1 default) = 2 ∧
    ¬ (5/2 ≤ vertSharedExtent (layoutC2.rooms.getD 0 default)
              (layoutC2.rooms.getD 1 default)) := by
  exact ⟨by decide, by decide, by decide, by decide, by decide, by decide⟩

theorem mem_setR {l : List Room} {i : Nat} {v r : Room} (h : r ∈ setR l i v) :
    r ∈ l ∨ r = v := by
  induction l generalizing i with
  | nil => simp [setR] at h
  | cons a rs ih =>
      cases i with
      | zero =>
          rcases List.mem_cons.mp h with h1 | h1
          · exact Or.inr h1
          · exact Or.inl (List.mem_cons_of_mem _ h1)
      | succ n =>
          rcases List.mem_cons.mp h with h1 | h1
          · exact Or.inl (h1 ▸ List.mem_cons_self _ _)
          · rcases ih h1 with h2 | h2
            · exact Or.inl (List.mem_cons_of_mem _ h2)
            · exact Or.inr h2

theorem innerFold_attach_nil (rooms : List Room) (ai : Nat)
    (edges : List AdjEdge) (acc : List (ℤ × Nat × Nat × AdjEdge))
    (h : ∀ e ∈ edges, (e.kind == "attach") = false) :
    edges.foldl (fun acc edge =>
      match edgeAttachment rooms ai edge with
      | none => acc
      | some att => acc ++ [att]) acc = acc := by
  induction edges generalizing acc with
  | nil => rfl
  | cons e rest ih =>
      have he : edgeAttachment rooms ai e = none := by
        unfold edgeAttachment
        rw [h e (List.mem_cons_self _ _)]
        rfl
      rw [List.foldl_cons, he]
      exact ih acc fun e' he' => h e' (List.mem_cons_of_mem _ he')

theorem collectAttachments_nil (rooms : List Room)
    (h : ∀ r ∈ rooms, ∀ e ∈ r.adjacency, (e.kind == "attach") = false) :
    collectAttachments rooms = [] := by
  unfold collectAttachments
  have main : ∀ (idxs : List Nat),
      (∀ ai ∈ idxs, ∀ e ∈ (getR rooms ai).adjacency, (e.kind == "attach") = false) →
      ∀ acc, idxs.foldl (fun acc ai =>
        (getR rooms ai).adjacency.foldl (fun acc edge =>
          match edgeAttachment rooms ai edge with
          | none => acc
          | some att => acc ++ [att]) acc) acc = acc := by
    intro idxs
    induction idxs with
    | nil => intro _ acc; rfl
    | cons ai rest ih =>
        intro hall acc
        rw [List.foldl_cons,
          innerFold_attach_nil rooms ai _ acc (hall ai (List.mem_cons_self _ _))]
        exact ih (fun a ha => hall a (List.mem_cons_of_mem _ ha)) acc
  refine main _ (fun ai hai => ?_) []
  by_cases hlt : ai < rooms.length
  · exact h _ (getR_mem hlt)
  · have : getR rooms ai = default := by
      unfold getR
      rw [List.getD_eq_default]
      omega
    rw [this]
    intro e he
    simp [default] at he

theorem masterBed_ne_bath {rooms : List Room} {bi ti : Nat}
    (hbi : findIdxP isMasterBed rooms = some bi)
    (hti : findIdxP isMasterBath rooms = some ti) : bi ≠ ti := by
  intro hcontra
  have h1 := (findIdxP_spec hbi).2
  have h2 := (findIdxP_spec hti).2
  rw [hcontra] at h1
  have e1 : (getR rooms ti).purpose = "bedroom" := by
    simp [isMasterBed] at h1
    exact h1.1
  have e2 : (getR rooms ti).purpose = "bathroom" := by
    simp [isMasterBath] at h2
    exact h2.1
  have e3 := e1.symm.trans e2
  simp at e3

theorem forceMasterAttach_eq (rooms : List Room) {bi ti : Nat}
    (hbi : findIdxP isMasterBed rooms = some bi)
    (hti : findIdxP isMasterBath rooms = some ti) :
    forceMasterAttach rooms = setR rooms ti (forcedBath rooms bi ti) := by
  unfold forceMasterAttach
  rw [hbi, hti]
  rfl

theorem isMasterBed_forcedBath (rooms : List Room) (bi ti : Nat) :
    isMasterBed (forcedBath rooms bi ti) = isMasterBed (getR rooms ti) := rfl

theorem isMasterBath_forcedBath (rooms : List Room) (bi ti : Nat) :
    isMasterBath (forcedBath rooms bi ti) = isMasterBath (getR rooms ti) := rfl

theorem hyps_force {rooms : List Room} {bi ti : Nat}
    (hbi : findIdxP isMasterBed rooms = some bi)
    (hti : findIdxP isMasterBath rooms = some ti)
    (hadj : ∀ r ∈ rooms, ∀ e ∈ r.adjacency, (e.kind == "attach") = false) :
    findIdxP isMasterBed (forceMasterAttach rooms) = some bi ∧
    findIdxP isMasterBath (forceMasterAttach rooms) = some ti ∧
    (∀ r ∈ forceMasterAttach rooms, ∀ e ∈ r.adjacency,
      (e.kind == "attach") = false) := by
  rw [forceMasterAttach_eq rooms hbi hti]
  refine ⟨?_, ?_, ?_⟩
  · rw [findIdxP_set (isMasterBed_forcedBath rooms bi ti)]
    exact hbi
  · rw [findIdxP_set (isMasterBath_forcedBath rooms bi ti)]
    exact hti
  · intro r hr
    rcases mem_setR hr with h1 | h1
    · exact hadj r h1
    · subst h1
      exact hadj (getR rooms ti) (getR_mem (findIdxP_spec hti).1)

theorem refineIteration_no_attach (bounds : ℚ × ℚ × ℚ × ℚ) (rooms : List Room)
    {bi ti : Nat}
    (hbi : findIdxP isMasterBed rooms = some bi)
    (hti : findIdxP isMasterBath rooms = some ti)
    (hadj : ∀ r ∈ rooms, ∀ e ∈ r.adjacency, (e.kind == "attach") = false) :
    refineIteration bounds rooms = forceMasterAttach rooms := by
  obtain ⟨-, -, hadjF⟩ := hyps_force hbi hti hadj
  unfold refineIteration
  rw [collectAttachments_nil _ hadjF]
  rfl

theorem forceMasterAttach_idem (rooms : List Room) {bi ti : Nat}
    (hbi : findIdxP isMasterBed rooms = some bi)
    (hti : findIdxP isMasterBath rooms = some ti) :
    forceMasterAttach (forceMasterAttach rooms) = forceMasterAttach rooms := by
  have hne := masterBed_ne_bath hbi hti
  have htibi : ti ≠ bi := fun hh => hne hh.symm
  have hfb : findIdxP isMasterBed (forceMasterAttach rooms) = some bi := by
    rw [forceMasterAttach_eq rooms hbi hti,
      findIdxP_set (isMasterBed_forcedBath rooms bi ti)]
    exact hbi
  have hft : findIdxP isMasterBath (forceMasterAttach rooms) = some ti := by
    rw [forceMasterAttach_eq rooms hbi hti,
      findIdxP_set (isMasterBath_forcedBath rooms bi ti)]
    exact hti
  rw [forceMasterAttach_eq (forceMasterAttach rooms) hfb hft,
    forceMasterAttach_eq rooms hbi hti]
  have hbath : forcedBath (setR rooms ti (forcedBath rooms bi ti)) bi ti
      = forcedBath rooms bi ti := by
    unfold forcedBath
    rw [getR_set_ne htibi, getR_set_self (findIdxP_spec hti).1]
  rw [hbath]
  simp only [setR]
  rw [List.set_set]

theorem refine_force (bounds : ℚ × ℚ × ℚ × ℚ) (rooms : List Room) (n : Nat)
    {bi ti : Nat}
    (hbi : findIdxP isMasterBed rooms = some bi)
    (hti : findIdxP isMasterBath rooms = some ti)
    (hadj : ∀ r ∈ rooms, ∀ e ∈ r.adjacency, (e.kind == "attach") = false) :
    refine bounds (n + 1) rooms = (forceMasterAttach rooms).map snapRoom := by
  induction n generalizing rooms with
  | zero =>
      show refine bounds 0 (refineIteration bounds rooms) = _
      rw [refineIteration_no_attach bounds rooms hbi hti hadj]
      rfl
  | succ m ih =>
      show refine bounds (m + 1) (refineIteration bounds rooms) = _
      rw [refineIteration_no_attach bounds rooms hbi hti hadj]
      obtain ⟨hbiF, htiF, hadjF⟩ := hyps_force hbi hti hadj
      rw [ih (forceMasterAttach rooms) hbiF htiF hadjF,
        forceMasterAttach_idem rooms hbi hti]

/-- C2 amended: every pass of `StrictAdjacencyRefiner.refine` (here: on
a room list with no `attach` edges, so that only the unconditional
master-pair forcing acts) leaves the master bathroom flush against the
master bedroom's right side at equal y and locked; the shared wall
therefore has length `min(bed.height, bath.height)`, which is ≥ 2.5
exactly when both heights are ≥ 2.5.  The end-of-pipeline ≥ 2.5
invariant fails when a height is below 2.5 (see the counterexample),
and `polish_layout` and its bathroom x-snap can additionally displace the
pair after the final refine. -/
theorem C2_amended (rooms : List Room) (bounds : ℚ × ℚ × ℚ × ℚ)
    (iters bi ti : Nat)
    (hbi : findIdxP isMasterBed rooms = some bi)
    (hti : findIdxP isMasterBath rooms = some ti)
    (hadj : ∀ r ∈ rooms, ∀ e ∈ r.adjacency, (e.kind == "attach") = false)
    (hgx : ∃ k : ℤ, (getR rooms bi).x = k / 2)
    (hgw : ∃ k : ℤ, (getR rooms bi).width = k / 2) :
    (getR (refine bounds (iters + 1) rooms) ti).x
      = (getR (refine bounds (iters + 1) rooms) bi).x
        + (getR (refine bounds (iters + 1) rooms) bi).width + 1/2 ∧
    (getR (refine bounds (iters + 1) rooms) ti).y
      = (getR (refine bounds (iters + 1) rooms) bi).y ∧
    (getR (refine bounds (iters + 1) rooms) ti).locked = true ∧
    (5/2 ≤ (getR (refine bounds (iters + 1) rooms) bi).height →
     5/2 ≤ (getR (refine bounds (iters + 1) rooms) ti).height →
     5/2 ≤ min ((getR (refine bounds (iters + 1) rooms) bi).y
                 + (getR (refine bounds (iters + 1) rooms) bi).height)
               ((getR (refine bounds (iters + 1) rooms) ti).y
                 + (getR (refine bounds (iters + 1) rooms) ti).height)
          - max (getR (refine bounds (iters + 1) rooms) bi).y
                (getR (refine bounds (iters + 1) rooms) ti).y) := by
  obtain ⟨kx, hkx⟩ := hgx
  obtain ⟨kw, hkw⟩ := hgw
  have hbip := findIdxP_spec hbi
  have htip := findIdxP_spec hti
  have hne := masterBed_ne_bath hbi hti
  have htibi : ti ≠ bi := fun hh => hne hh.symm
  rw [refine_force bounds rooms iters hbi hti hadj,
    forceMasterAttach_eq rooms hbi hti]
  have hlb : bi < (setR rooms ti (forcedBath rooms bi ti)).length := by
    simp only [setR, List.length_set]
    exact hbip.1
  have hlt : ti < (setR rooms ti (forcedBath rooms bi ti)).length := by
    simp only [setR, List.length_set]
    exact htip.1
  rw [getR_map_lt snapRoom hlb, getR_map_lt snapRoom hlt,
    getR_set_ne htibi, getR_set_self htip.1]
  have hsnapx : snapQ (getR rooms bi).x = (getR rooms bi).x := by
    rw [hkx]
    exact snapQ_half_int kx
  have hsnapbx : snapQ ((getR rooms bi).x + (getR rooms bi).width + 1/2)
      = (getR rooms bi).x + (getR rooms bi).width + 1/2 := by
    have heq : (getR rooms bi).x + (getR rooms bi).width + 1/2
        = ((kx + kw + 1 : ℤ) : ℚ) / 2 := by
      rw [hkx, hkw]
      push_cast
      ring
    rw [heq, snapQ_half_int]
  refine ⟨?_, rfl, rfl, ?_⟩
  · show snapQ ((getR rooms bi).x + (getR rooms bi).width + 1/2)
      = snapQ (getR rooms bi).x + (getR rooms bi).width + 1/2
    rw [hsnapbx, hsnapx]
  · intro h1 h2
    show (5 : ℚ)/2 ≤
      min (snapQ (getR rooms bi).y + (getR rooms bi).height)
          (snapQ (getR rooms bi).y + (getR rooms ti).height)
        - max (snapQ (getR rooms bi).y) (snapQ (getR rooms bi).y)
    rw [max_self, min_add_add_left, add_sub_cancel_left]
    exact le_min h1 h2

theorem C2_amended_witness :
    (getR (refine (5, 5, 35, 35) 1 [bedW, bathW]) 1).x
      = (getR (refine (5, 5, 35, 35) 1 [bedW, bathW]) 0).x
        + (getR (refine (5, 5, 35, 35) 1 [bedW, bathW]) 0).width + 1/2 :=
  (C2_amended [bedW, bathW] (5, 5, 35, 35) 0 0 1 (by decide) (by decide)
    (by decide) ⟨12, by decide⟩ ⟨24, by decide⟩).1

/-! ## C3 -/

/-- C3 counterexample: a single 31×31 room cannot fit the 30×30
buildable rectangle; after the final clamp it sits at (5, 5) with its
far corner at 36 > 35, so the completed layout violates containment. -/
theorem C3_counterexample :
    inBuildable (layoutC3.rooms.getD 0 default) = false ∧
    (layoutC3.rooms.getD 0 default).x + (layoutC3.rooms.getD 0 default).width = 36 := by
  exact ⟨by decide, by decide⟩

/-- C3 amended: `clamp_to_bounds` does put a room inside the buildable
bounds (5, 5, 35, 35) — provided the room's width and height do not
exceed the 30-unit buildable extent.  Oversized rooms stay out of
bounds (see the counterexample), and `polish_layout` may still displace
bathrooms/corridors after the clamp. -/
theorem C3_amended (r : Room) (hw : r.width ≤ 30) (hh : r.height ≤ 30) :
    insideBounds (clampToBounds (5, 5, 35, 35) r) (5, 5, 35, 35) = true := by
  simp only [insideBounds, clampToBounds, rb, Bool.and_eq_true, decide_eq_true_eq]
  refine ⟨⟨⟨?_, ?_⟩, ?_⟩, ?_⟩
  · exact le_max_left _ _
  · exact le_max_left _ _
  · have hx : max 5 (min r.x (35 - r.width)) ≤ 35 - r.width :=
      max_le (by linarith) (min_le_right _ _)
    linarith
  · have hy : max 5 (min r.y (35 - r.height)) ≤ 35 - r.height :=
      max_le (by linarith) (min_le_right _ _)
    linarith

theorem C3_amended_witness :
    insideBounds (clampToBounds (5, 5, 35, 35) roomC3w) (5, 5, 35, 35) = true :=
  C3_amended roomC3w (by norm_num [roomC3w]) (by norm_num [roomC3w])

/-! ## C4 -/

/-- C4 counterexample: `generate_layout` calls `can_expand` with
`allow_into_circulation=False`, so the circulation hall flush against
the living room blocks its expansion entirely (final width 10); under
the claim's semantics — circulation excluded from the collision check —
the identical pipeline grows the living room to width 25. -/
theorem C4_counterexample :
    (layoutC4.rooms.getD 0 default).purpose = "living" ∧
    (layoutC4.rooms.getD 0 default).width = 10 ∧
    (layoutC4claimed.rooms.getD 0 default).width = 25 := by
  exact ⟨by decide, by decide, by decide⟩

/-- Unfolding lemma for a Boolean-valued if whose then-branch is false. -/
theorem ite_false_left {c : Prop} [Decidable c] {y : Bool} :
    ((if c then false else y) = true) ↔ (¬ c ∧ y = true) := by
  split_ifs with h <;> simp [h]

theorem ite_true_left {c : Prop} [Decidable c] {y : Bool} :
    ((if c then true else y) = true) ↔ (c ∨ y = true) := by
  split_ifs with h <;> simp [h]

/-- C4 amended: in the Room Expander phase the growth predicate is
`can_expand` with `allow_into_circulation=False`, which accepts a step
exactly when the grown rectangle stays in bounds and keeps 0.5-unit
clearance from **every** other room — circulation rooms included, so a
room is never grown into circulation space. -/
theorem C4_amended (i : Nat) (rooms : List Room)
    (bx1 by1 bx2 by2 dx dy clearance : ℚ) :
    canExpand i rooms (bx1, by1, bx2, by2) dx dy clearance false = true ↔
      ((bx1 ≤ (getR rooms i).x ∧ by1 ≤ (getR rooms i).y ∧
        (getR rooms i).x + ((getR rooms i).width + dx) ≤ bx2 ∧
        (getR rooms i).y + ((getR rooms i).height + dy) ≤ by2) ∧
       ∀ j, j < rooms.length → j ≠ i →
         ((getR rooms i).x + ((getR rooms i).width + dx) + clearance
            ≤ (getR rooms j).x ∨
          (getR rooms i).x ≥ (getR rooms j).x + (getR rooms j).width + clearance ∨
          (getR rooms i).y + ((getR rooms i).height + dy) + clearance
            ≤ (getR rooms j).y ∨
          (getR rooms i).y ≥ (getR rooms j).y + (getR rooms j).height + clearance)) := by
  unfold canExpand rb
  dsimp only
  rw [ite_false_left]
  simp only [List.all_eq_true, List.mem_range, Bool.or_eq_true, decide_eq_true_eq,
    not_or, not_lt, beq_iff_eq, ge_iff_le, and_assoc, or_assoc, Bool.false_and,
    Bool.false_eq_true, ite_true_left, false_or]
  constructor
  · rintro ⟨ha, hb, hc, hd, hall⟩
    refine ⟨ha, hb, hc, hd, fun j hj hne => ?_⟩
    rcases hall j hj with h2 | h2
    · exact absurd h2 hne
    · exact h2
  · rintro ⟨ha, hb, hc, hd, hall⟩
    refine ⟨ha, hb, hc, hd, fun j hj => ?_⟩
    by_cases hne : j = i
    · exact Or.inl hne
    · exact Or.inr (hall j hj hne)

theorem C4_amended_witness :
    canExpand 0 [bedW] (5, 5, 35, 35) (1/2) 0 (1/2) false = true :=
  (C4_amended 0 [bedW] 5 5 35 35 (1/2) 0 (1/2)).mpr
    ⟨⟨by decide, by decide, by decide, by decide⟩,
     fun j hj hne => absurd (Nat.lt_one_iff.mp hj) hne⟩

/-! ## C5 -/

/-- C5 counterexample: a locked living room overlapping an unlocked
store.  The claim's precedence would fall through to the generic
resolution and push the store away; the code's `_apply_rules` instead
returns resolved without moving anything, so a full resolver pass
reports the overlap (`overlaps_found = 1`) yet leaves both rooms in
place. -/
theorem C5_counterexample :
    overlapQ livingLockedC5 storeC5 = true ∧
    resolvePass [livingLockedC5, storeC5] = ([livingLockedC5, storeC5], true, 1) ∧
    c5ClaimStep livingLockedC5 storeC5 ≠ (livingLockedC5, storeC5) := by
  exact ⟨by decide, by decide, by decide⟩

/-- C5 amended: the resolver's pair handling follows this precedence:
kitchen/bedroom stacks the bedroom below the kitchen; a living room
consumes the overlap, pushing the other room only when the living room
is unlocked (a locked living room leaves the pair in place and the
fallback is never reached); kitchen and foyer push the other room
regardless of lock state; otherwise the fallback pushes the unlocked
room away from a locked one, then the lower-priority room away from the
higher, then the room of smaller-or-equal area away from the other. -/
theorem C5_amended (a b : Room) : resolvePairRooms a b = amendedStep a b := by
  unfold resolvePairRooms amendedStep c5Classify applyRules separateByPriority
  by_cases h1 : (a.purpose == "kitchen" && b.purpose == "bedroom") = true
  · rw [if_pos h1, if_pos h1] <;> rfl
  · rw [if_neg h1, if_neg h1]
    by_cases h2 : (b.purpose == "kitchen" && a.purpose == "bedroom") = true
    · rw [if_pos h2, if_pos h2] <;> rfl
    · rw [if_neg h2, if_neg h2]
      by_cases h3 : (a.purpose == "living") = true
      · rw [if_pos h3, if_pos h3]
        cases hl : a.locked <;> rfl
      · rw [if_neg h3, if_neg h3]
        by_cases h4 : (b.purpose == "living") = true
        · rw [if_pos h4, if_pos h4]
          cases hl : b.locked <;> rfl
        · rw [if_neg h4, if_neg h4]
          by_cases h5 : (a.purpose == "kitchen") = true
          · rw [if_pos h5, if_pos h5] <;> rfl
          · rw [if_neg h5, if_neg h5]
            by_cases h6 : (b.purpose == "kitchen") = true
            · rw [if_pos h6, if_pos h6] <;> rfl
            · rw [if_neg h6, if_neg h6]
              by_cases h7 : strHasLower "foyer" a.name = true
              · rw [if_pos h7, if_pos h7] <;> rfl
              · rw [if_neg h7, if_neg h7]
                by_cases h8 : strHasLower "foyer" b.name = true
                · rw [if_pos h8, if_pos h8] <;> rfl
                · rw [if_neg h8, if_neg h8]
                  by_cases h9 : a.locked = true
                  · rw [if_pos h9, if_pos h9] <;> rfl
                  · rw [if_neg h9, if_neg h9]
                    by_cases h10 : b.locked = true
                    · rw [if_pos h10, if_pos h10] <;> rfl
                    · rw [if_neg h10, if_neg h10]
                      by_cases h11 : a.priority > b.priority
                      · rw [if_pos h11, if_pos h11] <;> rfl
                      · rw [if_neg h11, if_neg h11]
                        by_cases h12 : b.priority > a.priority
                        · rw [if_pos h12, if_pos h12] <;> rfl
                        · rw [if_neg h12, if_neg h12]
                          by_cases h13 : a.area ≤ b.area
                          · rw [if_pos h13, if_pos h13] <;> rfl
                          · rw [if_neg h13, if_neg h13] <;> rfl

/-! ## C7 -/

/-- C7 counterexample: merging the three collinear unit segments
`[(0,0)–(0,1), (0,2)–(0,3), (0,1)–(0,2)]` once leaves two touching
segments `(0,0)–(0,2)` and `(0,2)–(0,3)`; a second `merge_walls`
application folds them into one, so the two results differ and
`merge_walls` is not idempotent. -/
theorem C7_counterexample :
    mergeWalls (mergeWalls wallsC7) ≠ mergeWalls wallsC7 := by
  decide

theorem mergeScan_none {w : WallSegment} {acc : List WallSegment}
    (h : ∀ m ∈ acc, mergeInto w m = none) : mergeScan w acc = none := by
  induction acc with
  | nil => rfl
  | cons m ms ih =>
      unfold mergeScan
      rw [h m (List.mem_cons_self _ _),
        ih fun m' hm' => h m' (List.mem_cons_of_mem _ hm')]
      rfl

theorem mergeWalls_foldl_frozen (l acc : List WallSegment)
    (hcross : ∀ m ∈ acc, ∀ w ∈ l, mergeInto w m = none)
    (hpair : l.Pairwise fun m w => mergeInto w m = none) :
    l.foldl (fun merged w =>
      match mergeScan w merged with
      | some merged' => merged'
      | none => merged ++ [w]) acc = acc ++ l := by
  induction l generalizing acc with
  | nil => rw [List.foldl_nil, List.append_nil]
  | cons w rest ih =>
      simp only [List.foldl_cons]
      rw [mergeScan_none fun m hm => hcross m hm w (List.mem_cons_self _ _)]
      have hcross' : ∀ m ∈ acc ++ [w], ∀ w' ∈ rest, mergeInto w' m = none := by
        intro m hm w' hw'
        rcases List.mem_append.mp hm with h1 | h1
        · exact hcross m h1 w' (List.mem_cons_of_mem _ hw')
        · have hmw : m = w := by simpa using h1
          subst hmw
          exact (List.pairwise_cons.mp hpair).1 w' hw'
      rw [ih (acc ++ [w]) hcross' (List.pairwise_cons.mp hpair).2]
      simp

/-- C7 amended: `merge_walls` is the identity — hence idempotent — on
any segment list in which no later segment is mergeable into an earlier
one; in general a single pass can leave newly-touching collinear
segments unmerged (see the counterexample), so idempotence fails. -/
theorem C7_amended (ws : List WallSegment)
    (h : ws.Pairwise fun m w => mergeInto w m = none) :
    mergeWalls ws = ws := by
  unfold mergeWalls
  have hmain := mergeWalls_foldl_frozen ws [] (by intro m hm; simp at hm) h
  simpa using hmain

theorem C7_amended_witness : mergeWalls wallsC7w = wallsC7w :=
  C7_amended wallsC7w (by decide)

/-- C6: for an input plan whose rooms array is empty, `generate_layout`
returns a layout whose rooms and doors lists are both empty and whose
quality score is 110 (base 100 plus the compactness bonus of 10). -/
theorem C6_empty_plan :
    generateLayout { rooms := some [] } =
      .ok { bounds := (5, 5, 35, 35), quality_score := 110, rooms := [], doors := [] } := by
  rfl

/-- C8: if the input plan object is missing the mandatory `rooms` field,
`generate_layout` fails hard with a `KeyError` before any placement work,
producing no (partial) layout. -/
theorem C8_missing_rooms (plan : PlanJson) (h : plan.rooms = none) :
    generateLayout plan = .error "KeyError: rooms" := by
  unfold generateLayout
  rw [h]

theorem C8_missing_rooms_witness :
    generateLayout { rooms := none } = .error "KeyError: rooms" :=
  C8_missing_rooms { rooms := none } rfl

/-- C10: `Room.make_corridor a b width` returns a circulation room whose
extent along the orientation axis (larger center separation, ties
vertical) is `min |separation| 12` and whose extent on the other axis is
`width`; when the centers coincide the corridor degenerates to zero
height. -/
theorem C10_make_corridor (a b : Room) (w : ℚ) :
    (Room.make_corridor a b w).purpose = "circulation" ∧
    (|(a.center).1 - (b.center).1| > |(a.center).2 - (b.center).2| →
      (Room.make_corridor a b w).width = min |(a.center).1 - (b.center).1| 12 ∧
        (Room.make_corridor a b w).height = w) ∧
    (¬ |(a.center).1 - (b.center).1| > |(a.center).2 - (b.center).2| →
      (Room.make_corridor a b w).width = w ∧
        (Room.make_corridor a b w).height = min |(a.center).2 - (b.center).2| 12) ∧
    ((a.center).1 = (b.center).1 → (a.center).2 = (b.center).2 →
      (Room.make_corridor a b w).height = 0) := by
  refine ⟨?_, ?_, ?_, ?_⟩
  · simp only [Room.make_corridor]
    split_ifs <;> rfl
  · intro h
    simp only [Room.make_corridor, if_pos h]
    exact ⟨by trivial, by trivial⟩
  · intro h
    simp only [Room.make_corridor, if_neg h]
    exact ⟨by trivial, by trivial⟩
  · intro hx hy
    have h : ¬ |(a.center).1 - (b.center).1| > |(a.center).2 - (b.center).2| := by
      rw [hx, hy]
      simp
    simp only [Room.make_corridor, if_neg h]
    rw [hy, sub_self, abs_zero]
    exact min_eq_left (by norm_num)

def roomWa : Room :=
  { room_id := "a", name := "A", purpose := "store", width := 4, height := 4,
    zone := "public", adjacency := [] }

def roomWb : Room :=
  { room_id := "b", name := "B", purpose := "store", width := 4, height := 4,
    zone := "public", adjacency := [] }

theorem C10_witness : (Room.make_corridor roomWa roomWb 4).height = 0 :=
  (C10_make_corridor roomWa roomWb 4).2.2.2 (by decide) (by decide)

/-! ## C9 -/

theorem getR_eq_getElem {l : List Room} {i : Nat} (h : i < l.length) :
    getR l i = l[i] := by
  induction l generalizing i with
  | nil => simp at h
  | cons r rs ih =>
      cases i with
      | zero => rfl
      | succ n => exact ih (Nat.lt_of_succ_lt_succ h)

theorem pairDoor_ids {a b : Room} {d : Door} (h : pairDoor a b = some d) :
    d.from_room = a.room_id ∧ d.to_room = b.room_id := by
  unfold pairDoor at h
  cases hsw : sharedWall a b with
  | none =>
      rw [hsw] at h
      exact absurd h (by simp)
  | some w =>
      obtain ⟨orient, dx, dy⟩ := w
      simp only [hsw] at h
      by_cases hp : (a.zone == "private" && b.zone == "private" &&
          !(a.purpose == "bathroom" || b.purpose == "bathroom")) = true
      · rw [if_pos hp] at h
        exact absurd h (by simp)
      · rw [if_neg hp] at h
        by_cases hc : (a.purpose == "circulation" && b.purpose == "circulation") = true
        · rw [if_pos hc] at h
          exact absurd h (by simp)
        · rw [if_neg hc] at h
          have h' := Option.some.inj h
          rw [← h']
          exact ⟨rfl, rfl⟩

theorem placeDoors_ids {rooms : List Room} {d : Door} (h : d ∈ placeDoors rooms) :
    d.from_room ∈ rooms.map Room.room_id ∧ d.to_room ∈ rooms.map Room.room_id := by
  induction rooms with
  | nil => simp [placeDoors] at h
  | cons a rest ih =>
      rw [show placeDoors (a :: rest)
        = rest.filterMap (pairDoor a) ++ placeDoors rest from rfl] at h
      rw [List.map_cons]
      rcases List.mem_append.mp h with h1 | h1
      · obtain ⟨b, hb, hpd⟩ := List.mem_filterMap.mp h1
        obtain ⟨hf, ht⟩ := pairDoor_ids hpd
        constructor
        · rw [hf]
          exact List.mem_cons_self _ _
        · rw [ht]
          exact List.mem_cons_of_mem _ (List.mem_map_of_mem _ hb)
      · obtain ⟨h2, h3⟩ := ih h1
        exact ⟨List.mem_cons_of_mem _ h2, List.mem_cons_of_mem _ h3⟩

theorem placeDoors_from_earlier {rooms : List Room} {d : Door}
    (h : d ∈ placeDoors rooms) :
    ∃ i j, i < j ∧ j < rooms.length ∧
      d.from_room = (getR rooms i).room_id ∧
      d.to_room = (getR rooms j).room_id := by
  induction rooms with
  | nil => simp [placeDoors] at h
  | cons a rest ih =>
      rw [show placeDoors (a :: rest)
        = rest.filterMap (pairDoor a) ++ placeDoors rest from rfl] at h
      rcases List.mem_append.mp h with h1 | h1
      · obtain ⟨b, hb, hpd⟩ := List.mem_filterMap.mp h1
        obtain ⟨hf, ht⟩ := pairDoor_ids hpd
        obtain ⟨j0, hj0, hbj⟩ := List.mem_iff_getElem.mp hb
        refine ⟨0, j0 + 1, Nat.succ_pos _, Nat.succ_lt_succ hj0, hf, ?_⟩
        rw [ht, ← hbj]
        have hgr : getR (a :: rest) (j0 + 1) = getR rest j0 := rfl
        rw [hgr, getR_eq_getElem hj0]
      · obtain ⟨i, j, hij, hjl, hfe, hte⟩ := ih h1
        refine ⟨i + 1, j + 1, Nat.succ_lt_succ hij, Nat.succ_lt_succ hjl, ?_, ?_⟩
        · rw [hfe]
          rfl
        · rw [hte]
          rfl

theorem filter_roomid_le_one {rooms : List Room}
    (hnd : (rooms.map Room.room_id).Nodup) (v : String) :
    (rooms.filter fun r => r.room_id == v).length ≤ 1 := by
  induction rooms with
  | nil => simp
  | cons a rest ih =>
      rw [List.map_cons, List.nodup_cons] at hnd
      rw [List.filter_cons]
      by_cases ha : (a.room_id == v) = true
      · rw [if_pos ha]
        have hv : a.room_id = v := by simpa using ha
        have hzero : (rest.filter fun r => r.room_id == v) = [] := by
          rw [List.filter_eq_nil_iff]
          intro r hr hpr
          have hrv : r.room_id = v := by simpa using hpr
          exact hnd.1 (by rw [← hv] at hrv; rw [← hrv]; exact List.mem_map_of_mem _ hr)
        rw [hzero]
        simp
      · rw [if_neg ha]
        exact ih hnd.2

theorem filterMap_filter_le {l : List Room} {f : Room → Option Door}
    {pr : Door → Bool} {q : Room → Bool}
    (hf : ∀ x ∈ l, ∀ d, f x = some d → pr d = true → q x = true) :
    ((l.filterMap f).filter pr).length ≤ (l.filter q).length := by
  induction l with
  | nil => simp
  | cons x rest ih =>
      have ihr := ih fun y hy => hf y (List.mem_cons_of_mem _ hy)
      cases hfx : f x with
      | none =>
          rw [List.filterMap_cons_none hfx, List.filter_cons]
          by_cases hq : (q x) = true
          · rw [if_pos hq]
            exact le_trans ihr (Nat.le_succ _)
          · rw [if_neg hq]
            exact ihr
      | some d =>
          rw [List.filterMap_cons_some hfx, List.filter_cons, List.filter_cons]
          by_cases hpr : (pr d) = true
          · rw [if_pos hpr]
            have hq : q x = true := hf x (List.mem_cons_self _ _) d hfx hpr
            rw [if_pos hq]
            exact Nat.succ_le_succ ihr
          · rw [if_neg hpr]
            by_cases hq : (q x) = true
            · rw [if_pos hq]
              exact le_trans ihr (Nat.le_succ _)
            · rw [if_neg hq]
              exact ihr

theorem doors_pair_count (rooms : List Room)
    (hnd : (rooms.map Room.room_id).Nodup) (ida idb : String) :
    ((placeDoors rooms).filter fun d =>
      (d.from_room == ida && d.to_room == idb)
        || (d.from_room == idb && d.to_room == ida)).length ≤ 1 := by
  induction rooms with
  | nil => simp [placeDoors]
  | cons a rest ih =>
      have hnd' := hnd
      rw [List.map_cons, List.nodup_cons] at hnd'
      rw [show placeDoors (a :: rest)
        = rest.filterMap (pairDoor a) ++ placeDoors rest from rfl,
        List.filter_append, List.length_append]
      by_cases hida : a.room_id = ida
      · have hrest : ((placeDoors rest).filter fun d =>
            (d.from_room == ida && d.to_room == idb)
              || (d.from_room == idb && d.to_room == ida)) = [] := by
          rw [List.filter_eq_nil_iff]
          intro d hd hpr
          obtain ⟨hfm, htm⟩ := placeDoors_ids hd
          simp only [Bool.or_eq_true, Bool.and_eq_true, beq_iff_eq] at hpr
          rcases hpr with ⟨he, -⟩ | ⟨-, he⟩
          · rw [he, ← hida] at hfm
            exact hnd'.1 hfm
          · rw [he, ← hida] at htm
            exact hnd'.1 htm
        have hhead : ((rest.filterMap (pairDoor a)).filter fun d =>
            (d.from_room == ida && d.to_room == idb)
              || (d.from_room == idb && d.to_room == ida)).length
            ≤ (rest.filter fun b => b.room_id == idb).length := by
          refine filterMap_filter_le fun b hb d hpd hpr => ?_
          obtain ⟨hf, ht⟩ := pairDoor_ids hpd
          simp only [Bool.or_eq_true, Bool.and_eq_true, beq_iff_eq] at hpr
          simp only [beq_iff_eq]
          rcases hpr with ⟨-, he⟩ | ⟨he1, he2⟩
          · rw [← ht]
            exact he
          · rw [← ht, he2, ← hida, ← he1]
            exact hf.symm
        rw [hrest]
        simp only [List.length_nil, Nat.add_zero]
        exact le_trans hhead (filter_roomid_le_one hnd'.2 idb)
      · by_cases hidb : a.room_id = idb
        · have hrest : ((placeDoors rest).filter fun d =>
              (d.from_room == ida && d.to_room == idb)
                || (d.from_room == idb && d.to_room == ida)) = [] := by
            rw [List.filter_eq_nil_iff]
            intro d hd hpr
            obtain ⟨hfm, htm⟩ := placeDoors_ids hd
            simp only [Bool.or_eq_true, Bool.and_eq_true, beq_iff_eq] at hpr
            rcases hpr with ⟨-, he⟩ | ⟨he, -⟩
            · rw [he, ← hidb] at htm
              exact hnd'.1 htm
            · rw [he, ← hidb] at hfm
              exact hnd'.1 hfm
          have hhead : ((rest.filterMap (pairDoor a)).filter fun d =>
              (d.from_room == ida && d.to_room == idb)
                || (d.from_room == idb && d.to_room == ida)).length
              ≤ (rest.filter fun b => b.room_id == ida).length := by
            refine filterMap_filter_le fun b hb d hpd hpr => ?_
            obtain ⟨hf, ht⟩ := pairDoor_ids hpd
            simp only [Bool.or_eq_true, Bool.and_eq_true, beq_iff_eq] at hpr
            simp only [beq_iff_eq]
            rcases hpr with ⟨he1, he2⟩ | ⟨-, he⟩
            · rw [← ht, he2, ← hidb, ← he1]
              exact hf.symm
            · rw [← ht]
              exact he
          rw [hrest]
          simp only [List.length_nil, Nat.add_zero]
          exact le_trans hhead (filter_roomid_le_one hnd'.2 ida)
        · have hhead : ((rest.filterMap (pairDoor a)).filter fun d =>
              (d.from_room == ida && d.to_room == idb)
                || (d.from_room == idb && d.to_room == ida)) = [] := by
            rw [List.filter_eq_nil_iff]
            intro d hd hpr
            obtain ⟨b, hb, hpd⟩ := List.mem_filterMap.mp hd
            obtain ⟨hf, ht⟩ := pairDoor_ids hpd
            simp only [Bool.or_eq_true, Bool.and_eq_true, beq_iff_eq] at hpr
            rcases hpr with ⟨he, -⟩ | ⟨he, -⟩
            · exact hida (hf.symm.trans he)
            · exact hidb (hf.symm.trans he)
          rw [hhead]
          simp only [List.length_nil, Nat.zero_add]
          exact ih hnd'.2

theorem sharedWall_eq_first (a b : Room) :
    sharedWall a b = firstQualifyingWall a b := by
  unfold sharedWall firstQualifyingWall doorCandidates rb
  dsimp only
  by_cases h1 : (decide (|a.x + a.width - b.x| < 1/5) &&
      decide (min (a.y + a.height) (b.y + b.height) - max a.y b.y > 2)) = true
  · rw [if_pos h1]
    simp only [List.find?, h1]
    rfl
  · have h1f : (decide (|a.x + a.width - b.x| < 1/5) &&
        decide (min (a.y + a.height) (b.y + b.height) - max a.y b.y > 2)) = false := by
      simpa using h1
    rw [if_neg h1]
    simp only [List.find?, h1f]
    by_cases h2 : (decide (|a.x - (b.x + b.width)| < 1/5) &&
        decide (min (a.y + a.height) (b.y + b.height) - max a.y b.y > 2)) = true
    · rw [if_pos h2]
      simp only [h2]
      rfl
    · have h2f : (decide (|a.x - (b.x + b.width)| < 1/5) &&
          decide (min (a.y + a.height) (b.y + b.height) - max a.y b.y > 2)) = false := by
        simpa using h2
      rw [if_neg h2]
      simp only [h2f]
      by_cases h3 : (decide (|a.y + a.height - b.y| < 1/5) &&
          decide (min (a.x + a.width) (b.x + b.width) - max a.x b.x > 2)) = true
      · rw [if_pos h3]
        simp only [h3]
        rfl
      · have h3f : (decide (|a.y + a.height - b.y| < 1/5) &&
            decide (min (a.x + a.width) (b.x + b.width) - max a.x b.x > 2)) = false := by
          simpa using h3
        rw [if_neg h3]
        simp only [h3f]
        by_cases h4 : (decide (|a.y - (b.y + b.height)| < 1/5) &&
            decide (min (a.x + a.width) (b.x + b.width) - max a.x b.x > 2)) = true
        · rw [if_pos h4]
          simp only [h4]
          rfl
        · have h4f : (decide (|a.y - (b.y + b.height)| < 1/5) &&
              decide (min (a.x + a.width) (b.x + b.width) - max a.x b.x > 2)) = false := by
            simpa using h4
          rw [if_neg h4]
          simp only [h4f]
          rfl

/-- C9: `DoorPlacer.place` emits at most one door per unordered pair of
rooms (under distinct room ids); every door's `from_room` is the room
occurring earlier in the input list (`to_room` the later one); and
`_shared_wall` returns the first of the four wall pairings — a-right,
a-left, a-bottom, a-top, in that fixed order — whose collinearity gap is
within 0.2 and whose overlap strictly exceeds 2. -/
theorem C9_doorPlacer (rooms : List Room)
    (hnd : (rooms.map Room.room_id).Nodup) :
    (∀ ida idb, ((placeDoors rooms).filter fun d =>
        (d.from_room == ida && d.to_room == idb)
          || (d.from_room == idb && d.to_room == ida)).length ≤ 1) ∧
    (∀ d ∈ placeDoors rooms, ∃ i j, i < j ∧ j < rooms.length ∧
        d.from_room = (getR rooms i).room_id ∧
        d.to_room = (getR rooms j).room_id) ∧
    (∀ x y : Room, sharedWall x y = firstQualifyingWall x y) :=
  ⟨fun ida idb => doors_pair_count rooms hnd ida idb,
   fun _ hd => placeDoors_from_earlier hd,
   fun x y => sharedWall_eq_first x y⟩

theorem C9_doorPlacer_witness :
    ((placeDoors [livingLockedC5, storeC5]).filter fun d =>
      (d.from_room == "lv" && d.to_room == "st")
        || (d.from_room == "st" && d.to_room == "lv")).length ≤ 1 :=
  (C9_doorPlacer [livingLockedC5, storeC5] (by decide)).1 "lv" "st"

end Layout
